import Mathlib

/-!
Verification of the batch-framing layer of a text-to-SQL coursework
repository (load_data.py).  The data model and operations below are a
shallow embedding of T5Dataset.process_data, T5Dataset.__getitem__,
normal_collate_fn and test_collate_fn.  Token ids are natural numbers,
tensors are lists, and the external collaborators (the T5 tokenizer and
the torch pad_sequence utility) are modelled by their contracts:
the tokenizer in add_special_tokens mode appends an end-of-sequence
marker to the raw token stream, and pad_sequence right-pads every
sequence of a batch to the longest length in that batch, raising the
error "received an empty list of sequences" when given an empty list
(the documented torch behaviour).
-/

namespace LoadData

/-- PAD_IDX = 0 from load_data.py. -/
def PAD_IDX : Nat := 0

/-- The external tokenizer collaborator: a raw tokenization function
together with the end-of-sequence id it appends in add_special_tokens
mode and the id of the reserved token used as decoder BOS
(looked up once from the vocabulary in T5Dataset.__init__). -/
structure Tokenizer where
  tok : String → List Nat
  eosId : Nat
  bosId : Nat

/-- tokenizer.encode(s, add_special_tokens=True): the raw token ids of s
followed by the end-of-sequence marker. -/
def Tokenizer.encode (tz : Tokenizer) (s : String) : List Nat :=
  tz.tok s ++ [tz.eosId]

/-- The three per-example sequence lists produced by
T5Dataset.process_data. -/
structure TokenizedData where
  encoder_inputs : List (List Nat)
  decoder_inputs : List (List Nat)
  decoder_targets : List (List Nat)

/-- T5Dataset.process_data, with the line lists of the two files passed
in directly (file reading is out of scope).  For a split other than
"test" the SQL lines come from the .sql file; for "test" the code
substitutes one empty string per question.  The loop iterates over
zip(nl_queries, sql_queries); for a labeled example the decoder input
is the BOS id followed by the tokenized SQL with its last token dropped,
and the decoder target is the tokenized SQL itself; for "test" the
decoder input is the single BOS id and the decoder target is empty. -/
def process_data (tz : Tokenizer) (split : String)
    (nl_lines sql_lines : List String) : TokenizedData :=
  let nl_queries := nl_lines
  let sql_queries :=
    if split ≠ "test" then sql_lines else List.replicate nl_queries.length ""
  let pairs := nl_queries.zip sql_queries
  { encoder_inputs := pairs.map (fun p => tz.encode p.1)
    decoder_inputs := pairs.map (fun p =>
      if split ≠ "test" then tz.bosId :: (tz.encode p.2).dropLast
      else [tz.bosId])
    decoder_targets := pairs.map (fun p =>
      if split ≠ "test" then tz.encode p.2 else []) }

/-- T5Dataset.__getitem__: a triple of encoder input, decoder input and
decoder target; on the test split the third component is None
(modelled as an Option) even though an empty sequence is stored. -/
def getItem (split : String) (d : TokenizedData) (idx : Nat) :
    List Nat × List Nat × Option (List Nat) :=
  if split ≠ "test" then
    (d.encoder_inputs.getD idx [], d.decoder_inputs.getD idx [],
     some (d.decoder_targets.getD idx []))
  else
    (d.encoder_inputs.getD idx [], d.decoder_inputs.getD idx [], none)

/-- Longest sequence length in a batch (0 for an empty batch). -/
def maxLen (seqs : List (List Nat)) : Nat :=
  seqs.foldr (fun s m => max s.length m) 0

/-- Right-pad one sequence with padVal up to length T. -/
def padTo (T : Nat) (padVal : Nat) (xs : List Nat) : List Nat :=
  xs ++ List.replicate (T - xs.length) padVal

/-- torch.nn.utils.rnn.pad_sequence with batch_first=True: pads every
sequence to the longest length in the batch; an empty list of sequences
raises a runtime error in torch, modelled as an Except error. -/
def pad_sequence (seqs : List (List Nat)) (padVal : Nat) :
    Except String (List (List Nat)) :=
  if seqs.isEmpty then Except.error "received an empty list of sequences"
  else Except.ok (seqs.map (padTo (maxLen seqs) padVal))

/-- One row of (encoder_ids != PAD_IDX).float(): 1 at non-pad positions,
0 at pad positions. -/
def mask_row (row : List Nat) : List Nat :=
  row.map (fun t => if t ≠ PAD_IDX then 1 else 0)

/-- The five tensors returned by normal_collate_fn. -/
structure Batch where
  encoder_ids : List (List Nat)
  encoder_mask : List (List Nat)
  decoder_inputs : List (List Nat)
  decoder_targets : List (List Nat)
  initial_decoder_inputs : List Nat
  deriving DecidableEq

/-- normal_collate_fn: pads the three sequence families separately,
derives the encoder mask from the padded encoder ids, and collects the
first decoder-input token of each example.  (In Python, indexing
decoder_inputs[i][0] would raise on an empty sequence; every decoder
input built by the dataset starts with the BOS id, so the headD default
is never taken there.) -/
def normal_collate_fn (batch : List (List Nat × List Nat × List Nat)) :
    Except String Batch :=
  let encoder_inputs := batch.map (fun item => item.1)
  let decoder_inputs := batch.map (fun item => item.2.1)
  let decoder_targets := batch.map (fun item => item.2.2)
  match pad_sequence encoder_inputs PAD_IDX,
        pad_sequence decoder_inputs PAD_IDX,
        pad_sequence decoder_targets PAD_IDX with
  | Except.ok encoder_ids, Except.ok decoder_inputs_padded,
    Except.ok decoder_targets_padded =>
      Except.ok
        { encoder_ids := encoder_ids
          encoder_mask := encoder_ids.map mask_row
          decoder_inputs := decoder_inputs_padded
          decoder_targets := decoder_targets_padded
          initial_decoder_inputs :=
            decoder_inputs.map (fun d => d.headD PAD_IDX) }
  | Except.error e, _, _ => Except.error e
  | Except.ok _, Except.error e, _ => Except.error e
  | Except.ok _, Except.ok _, Except.error e => Except.error e

/-- The three tensors returned by test_collate_fn. -/
structure TestBatch where
  encoder_ids : List (List Nat)
  encoder_mask : List (List Nat)
  initial_decoder_inputs : List Nat
  deriving DecidableEq

/-- test_collate_fn: same as normal_collate_fn restricted to the encoder
ids, the encoder mask and the initial decoder inputs; the third
component of each item (None on the test split) is ignored. -/
def test_collate_fn
    (batch : List (List Nat × List Nat × Option (List Nat))) :
    Except String TestBatch :=
  let encoder_inputs := batch.map (fun item => item.1)
  let decoder_inputs := batch.map (fun item => item.2.1)
  match pad_sequence encoder_inputs PAD_IDX with
  | Except.ok encoder_ids =>
      Except.ok
        { encoder_ids := encoder_ids
          encoder_mask := encoder_ids.map mask_row
          initial_decoder_inputs :=
            decoder_inputs.map (fun d => d.headD PAD_IDX) }
  | Except.error e => Except.error e

/-- Keep exactly the positions of a padded row where the mask is 1
(the stripping step of the round-trip property). -/
def stripPad (row maskRow : List Nat) : List Nat :=
  ((row.zip maskRow).filter (fun p => p.2 == 1)).map (fun p => p.1)

/-- A concrete toy tokenizer used for witnesses: every string is one raw
token (its length plus 2, so never the pad id), EOS id 1, BOS id 5. -/
def toyTok : Tokenizer :=
  { tok := fun s => [s.length + 2], eosId := 1, bosId := 5 }

section SanityChecks

example : (process_data toyTok "train" ["a", "bb"] ["x", "yy"]).encoder_inputs
    = [[3, 1], [4, 1]] := by decide

example : (process_data toyTok "train" ["a", "bb"] ["x", "yy"]).decoder_inputs
    = [[5, 3], [5, 4]] := by decide

example : (process_data toyTok "train" ["a", "bb"] ["x", "yy"]).decoder_targets
    = [[3, 1], [4, 1]] := by decide

example : (process_data toyTok "test" ["a", "bb"] []).decoder_inputs
    = [[5], [5]] := by decide

example : (process_data toyTok "test" ["a", "bb"] []).decoder_targets
    = [[], []] := by decide

example : (process_data toyTok "train" ["a", "b"] ["x"]).encoder_inputs.length
    = 1 := by decide

example : normal_collate_fn [([3, 1], [5, 3], [3, 1]), ([4, 7, 1], [5], [1])]
    = Except.ok
      { encoder_ids := [[3, 1, 0], [4, 7, 1]]
        encoder_mask := [[1, 1, 0], [1, 1, 1]]
        decoder_inputs := [[5, 3], [5, 0]]
        decoder_targets := [[3, 1], [1, 0]]
        initial_decoder_inputs := [5, 5] } := by rfl

example : normal_collate_fn []
    = Except.error "received an empty list of sequences" := by rfl

example : test_collate_fn [([3, 1], [5], none)]
    = Except.ok
      { encoder_ids := [[3, 1]]
        encoder_mask := [[1, 1]]
        initial_decoder_inputs := [5] } := by rfl

example : stripPad [3, 1, 0] (mask_row [3, 1, 0]) = [3, 1] := by decide

end SanityChecks

section Helpers

lemma getD_map {α β : Type} (f : α → β) (l : List α) (i : Nat)
    (hi : i < l.length) (d : β) (da : α) :
    (l.map f).getD i d = f (l.getD i da) := by
  induction l generalizing i with
  | nil => simp at hi
  | cons a t ih =>
    cases i with
    | zero => rfl
    | succ n =>
      simp only [List.map_cons, List.getD_cons_succ]
      exact ih n (by simpa using hi)

lemma getD_zip {α β : Type} (l₁ : List α) (l₂ : List β) (i : Nat)
    (h₁ : i < l₁.length) (h₂ : i < l₂.length) (d₁ : α) (d₂ : β) :
    (l₁.zip l₂).getD i (d₁, d₂) = (l₁.getD i d₁, l₂.getD i d₂) := by
  induction l₁ generalizing l₂ i with
  | nil => simp at h₁
  | cons a t ih =>
    cases l₂ with
    | nil => simp at h₂
    | cons b u =>
      cases i with
      | zero => rfl
      | succ n =>
        simp only [List.zip_cons_cons, List.getD_cons_succ]
        exact ih u n (by simpa using h₁) (by simpa using h₂)

lemma getD_mem {α : Type} (l : List α) (i : Nat) (hi : i < l.length)
    (d : α) : l.getD i d ∈ l := by
  induction l generalizing i with
  | nil => simp at hi
  | cons a t ih =>
    cases i with
    | zero => exact List.mem_cons_self a t
    | succ n =>
      exact List.mem_cons_of_mem a (ih n (by simpa using hi))

lemma length_le_maxLen {s : List Nat} {seqs : List (List Nat)}
    (h : s ∈ seqs) : s.length ≤ maxLen seqs := by
  induction seqs with
  | nil => simp at h
  | cons a t ih =>
    rcases List.mem_cons.mp h with h1 | h2
    · subst h1; exact Nat.le_max_left _ _
    · exact Nat.le_trans (ih h2) (Nat.le_max_right _ _)

lemma length_padTo {T p : Nat} {xs : List Nat} (h : xs.length ≤ T) :
    (padTo T p xs).length = T := by
  simp only [padTo, List.length_append, List.length_replicate]
  omega

lemma maxLen_congr {α : Type} (f g : α → List Nat) (l : List α)
    (h : ∀ x ∈ l, (f x).length = (g x).length) :
    maxLen (l.map f) = maxLen (l.map g) := by
  induction l with
  | nil => rfl
  | cons a t ih =>
    simp only [List.map_cons, maxLen, List.foldr_cons]
    have ha := h a (List.mem_cons_self a t)
    have ht := ih (fun x hx => h x (List.mem_cons_of_mem a hx))
    simp only [maxLen] at ht
    rw [ha, ht]

/-- Inversion of normal_collate_fn on a successful run: each output
field in terms of the input batch. -/
lemma normal_collate_fields (batch : List (List Nat × List Nat × List Nat))
    (b : Batch) (h : normal_collate_fn batch = Except.ok b) :
    b.encoder_ids = (batch.map fun it => it.1).map
        (padTo (maxLen (batch.map fun it => it.1)) PAD_IDX) ∧
    b.encoder_mask = b.encoder_ids.map mask_row ∧
    b.decoder_inputs = (batch.map fun it => it.2.1).map
        (padTo (maxLen (batch.map fun it => it.2.1)) PAD_IDX) ∧
    b.decoder_targets = (batch.map fun it => it.2.2).map
        (padTo (maxLen (batch.map fun it => it.2.2)) PAD_IDX) ∧
    b.initial_decoder_inputs =
      (batch.map fun it => it.2.1).map (fun d => d.headD PAD_IDX) := by
  cases batch with
  | nil => simp [normal_collate_fn, pad_sequence] at h
  | cons x xs =>
    simp only [normal_collate_fn, pad_sequence, List.map_cons,
      List.isEmpty_cons, Bool.false_eq_true, if_false,
      Except.ok.injEq] at h
    subst h
    simp [pad_sequence]

/-- Inversion of test_collate_fn on a successful run. -/
lemma test_collate_fields
    (batch : List (List Nat × List Nat × Option (List Nat)))
    (b : TestBatch) (h : test_collate_fn batch = Except.ok b) :
    b.encoder_ids = (batch.map fun it => it.1).map
        (padTo (maxLen (batch.map fun it => it.1)) PAD_IDX) ∧
    b.encoder_mask = b.encoder_ids.map mask_row ∧
    b.initial_decoder_inputs =
      (batch.map fun it => it.2.1).map (fun d => d.headD PAD_IDX) := by
  cases batch with
  | nil => simp [test_collate_fn, pad_sequence] at h
  | cons x xs =>
    simp only [test_collate_fn, pad_sequence, List.map_cons,
      List.isEmpty_cons, Bool.false_eq_true, if_false,
      Except.ok.injEq] at h
    subst h
    simp [pad_sequence]

lemma mask_row_getD (row : List Nat) (j : Nat) (hj : j < row.length) :
    ((mask_row row).getD j 0 = 1 ↔ row.getD j 0 ≠ PAD_IDX) := by
  rw [mask_row, getD_map _ row j hj 0 0]
  by_cases h : row.getD j 0 ≠ PAD_IDX <;> simp [h]

lemma mask_row_append (u v : List Nat) :
    mask_row (u ++ v) = mask_row u ++ mask_row v := by
  simp [mask_row]

lemma mask_row_length (u : List Nat) : (mask_row u).length = u.length := by
  simp [mask_row]

lemma stripPad_self (xs : List Nat) (h : ∀ t ∈ xs, t ≠ PAD_IDX) :
    stripPad xs (mask_row xs) = xs := by
  induction xs with
  | nil => rfl
  | cons a t ih =>
    have ha : a ≠ PAD_IDX := h a (List.mem_cons_self a t)
    have ht := ih (fun x hx => h x (List.mem_cons_of_mem a hx))
    have hm : mask_row (a :: t) = 1 :: mask_row t := by
      simp [mask_row, ha]
    have hz : stripPad (a :: t) (1 :: mask_row t)
        = a :: stripPad t (mask_row t) := by
      simp [stripPad, List.zip_cons_cons]
    rw [hm, hz, ht]

lemma stripPad_replicate (k : Nat) :
    stripPad (List.replicate k PAD_IDX) (mask_row (List.replicate k PAD_IDX))
      = [] := by
  induction k with
  | zero => rfl
  | succ n ih =>
    have hm : mask_row (PAD_IDX :: List.replicate n PAD_IDX)
        = 0 :: mask_row (List.replicate n PAD_IDX) := by
      simp [mask_row]
    rw [List.replicate_succ, hm]
    have hz : stripPad (PAD_IDX :: List.replicate n PAD_IDX)
        (0 :: mask_row (List.replicate n PAD_IDX))
        = stripPad (List.replicate n PAD_IDX)
            (mask_row (List.replicate n PAD_IDX)) := by
      simp [stripPad, List.zip_cons_cons]
    rw [hz, ih]

lemma stripPad_append (u v : List Nat) :
    stripPad (u ++ v) (mask_row u ++ mask_row v)
      = stripPad u (mask_row u) ++ stripPad v (mask_row v) := by
  have hlen : u.length = (mask_row u).length := (mask_row_length u).symm
  rw [stripPad, List.zip_append hlen, List.filter_append, List.map_append]
  rfl

lemma stripPad_padTo (xs : List Nat) (T : Nat)
    (h : ∀ t ∈ xs, t ≠ PAD_IDX) :
    stripPad (padTo T PAD_IDX xs) (mask_row (padTo T PAD_IDX xs)) = xs := by
  rw [padTo, mask_row_append, stripPad_append, stripPad_self xs h,
    stripPad_replicate, List.append_nil]

lemma headD_of_head? {l : List Nat} {c d : Nat} (h : l.head? = some c) :
    l.headD d = c := by
  cases l <;> simp_all

lemma map_eq_replicate {α : Type} (l : List α) (f : α → Nat) (c : Nat)
    (h : ∀ x ∈ l, f x = c) : l.map f = List.replicate l.length c := by
  induction l with
  | nil => rfl
  | cons a t ih =>
    simp only [List.map_cons, List.length_cons, List.replicate_succ]
    rw [h a (List.mem_cons_self a t),
      ih (fun x hx => h x (List.mem_cons_of_mem a hx))]

/-- On a labeled split the three output lists of process_data all have
length min(#questions, #sql lines): zip truncates to the shorter file. -/
lemma process_data_lengths (tz : Tokenizer) (split : String)
    (hs : split ≠ "test") (nl sql : List String) :
    (process_data tz split nl sql).encoder_inputs.length
        = min nl.length sql.length ∧
    (process_data tz split nl sql).decoder_inputs.length
        = min nl.length sql.length ∧
    (process_data tz split nl sql).decoder_targets.length
        = min nl.length sql.length := by
  refine ⟨?_, ?_, ?_⟩ <;> simp [process_data, hs, List.length_zip]

lemma process_data_decoder_inputs_length (tz : Tokenizer) (split : String)
    (nl sql : List String) :
    (process_data tz split nl sql).decoder_inputs.length
      = if split ≠ "test" then min nl.length sql.length else nl.length := by
  by_cases hs : split = "test" <;>
    simp [process_data, hs, List.length_zip]

/-- The i-th tokenized example of a labeled split, read off the source
loop body. -/
lemma process_data_getD_labeled (tz : Tokenizer) (split : String)
    (hs : split ≠ "test") (nl sql : List String) (i : Nat)
    (h1 : i < nl.length) (h2 : i < sql.length) :
    (process_data tz split nl sql).encoder_inputs.getD i []
        = tz.encode (nl.getD i "") ∧
    (process_data tz split nl sql).decoder_inputs.getD i []
        = tz.bosId :: (tz.encode (sql.getD i "")).dropLast ∧
    (process_data tz split nl sql).decoder_targets.getD i []
        = tz.encode (sql.getD i "") := by
  have hp : i < (nl.zip sql).length := by
    rw [List.length_zip]; omega
  have hz := getD_zip nl sql i h1 h2 "" ""
  unfold process_data
  simp only [hs, ne_eq, not_false_eq_true, if_true, ite_true]
  refine ⟨?_, ?_, ?_⟩ <;>
    rw [getD_map _ _ i hp [] ("", ""), hz]

/-- The i-th tokenized example of the test split. -/
lemma process_data_getD_test (tz : Tokenizer) (nl sql : List String)
    (i : Nat) (h1 : i < nl.length) :
    (process_data tz "test" nl sql).encoder_inputs.getD i []
        = tz.encode (nl.getD i "") ∧
    (process_data tz "test" nl sql).decoder_inputs.getD i [] = [tz.bosId] ∧
    (process_data tz "test" nl sql).decoder_targets.getD i [] = [] := by
  have h2 : i < (List.replicate nl.length "").length := by
    rw [List.length_replicate]; omega
  have hp : i < (nl.zip (List.replicate nl.length "")).length := by
    rw [List.length_zip, List.length_replicate]; omega
  have hz := getD_zip nl (List.replicate nl.length "") i h1 h2 "" ""
  unfold process_data
  simp only [ne_eq, not_true_eq_false, if_false, ite_false]
  refine ⟨?_, ?_, ?_⟩ <;>
    rw [getD_map _ _ i hp [] ("", "")]
  rw [hz]

end Helpers

section Claims

/-- C1, counterexample: with two questions and one SQL line on the
train split, dataset construction succeeds and produces exactly one
example; the loop over zip(nl_queries, sql_queries) silently drops the
second question instead of raising a data-integrity error. -/
theorem C1_counterexample :
    (process_data toyTok "train" ["a", "b"] ["x"]).encoder_inputs.length
        = 1 ∧
    (process_data toyTok "train" ["a", "b"] ["x"]).decoder_targets.length
        = 1 ∧
    ["a", "b"].length = 2 := by
  decide

/-- C1, amended: on every labeled split, when the question file and the
SQL file have different line counts, dataset construction does not fail;
it silently truncates to the shorter file, producing exactly
min(#questions, #sql lines) examples in each of the three output
lists. -/
theorem C1_theorem (tz : Tokenizer) (split : String) (hs : split ≠ "test")
    (nl sql : List String) :
    (process_data tz split nl sql).encoder_inputs.length
        = min nl.length sql.length ∧
    (process_data tz split nl sql).decoder_inputs.length
        = min nl.length sql.length ∧
    (process_data tz split nl sql).decoder_targets.length
        = min nl.length sql.length :=
  process_data_lengths tz split hs nl sql

/-- C1, witness: the amended statement evaluated on the train split with
two questions and one SQL line. -/
theorem C1_witness :
    (process_data toyTok "train" ["a", "b"] ["x"]).encoder_inputs.length
        = min ["a", "b"].length ["x"].length ∧
    (process_data toyTok "train" ["a", "b"] ["x"]).decoder_inputs.length
        = min ["a", "b"].length ["x"].length ∧
    (process_data toyTok "train" ["a", "b"] ["x"]).decoder_targets.length
        = min ["a", "b"].length ["x"].length :=
  C1_theorem toyTok "train" (by decide) ["a", "b"] ["x"]

/-- C2: for every labeled example, the encoder input is the tokenized
question with special tokens, the decoder input is the BOS id followed
by the tokenized SQL with its final token dropped, and the decoder
target is the tokenized SQL unmodified. -/
theorem C2_theorem (tz : Tokenizer) (split : String) (hs : split ≠ "test")
    (nl sql : List String) (i : Nat)
    (h1 : i < nl.length) (h2 : i < sql.length) :
    (process_data tz split nl sql).encoder_inputs.getD i []
        = tz.encode (nl.getD i "") ∧
    (process_data tz split nl sql).decoder_inputs.getD i []
        = tz.bosId :: (tz.encode (sql.getD i "")).dropLast ∧
    (process_data tz split nl sql).decoder_targets.getD i []
        = tz.encode (sql.getD i "") :=
  process_data_getD_labeled tz split hs nl sql i h1 h2

/-- C2, witness: the statement evaluated on a one-example train split
with the toy tokenizer. -/
theorem C2_witness :
    (process_data toyTok "train" ["a"] ["b"]).encoder_inputs.getD 0 []
        = toyTok.encode (["a"].getD 0 "") ∧
    (process_data toyTok "train" ["a"] ["b"]).decoder_inputs.getD 0 []
        = toyTok.bosId :: (toyTok.encode (["b"].getD 0 "")).dropLast ∧
    (process_data toyTok "train" ["a"] ["b"]).decoder_targets.getD 0 []
        = toyTok.encode (["b"].getD 0 "") :=
  C2_theorem toyTok "train" (by decide) ["a"] ["b"] 0 (by decide) (by decide)

/-- C3: every labeled example satisfies
len(decoder_input) = len(decoder_target); the tokenizer contract
(an end-of-sequence marker is appended) makes the tokenized SQL
nonempty, so prepending BOS and dropping the last token preserves the
length. -/
theorem C3_theorem (tz : Tokenizer) (split : String) (hs : split ≠ "test")
    (nl sql : List String) (i : Nat)
    (h1 : i < nl.length) (h2 : i < sql.length) :
    ((process_data tz split nl sql).decoder_inputs.getD i []).length
      = ((process_data tz split nl sql).decoder_targets.getD i []).length := by
  obtain ⟨-, hdi, hdt⟩ :=
    process_data_getD_labeled tz split hs nl sql i h1 h2
  rw [hdi, hdt]
  simp [Tokenizer.encode]

/-- C3, witness: the statement evaluated on a one-example train split. -/
theorem C3_witness :
    ((process_data toyTok "train" ["a"] ["b"]).decoder_inputs.getD 0 []).length
      = ((process_data toyTok "train" ["a"] ["b"]).decoder_targets.getD 0
          []).length :=
  C3_theorem toyTok "train" (by decide) ["a"] ["b"] 0 (by decide) (by decide)

/-- C4: in every split every decoder input starts with the BOS id, and
each collator returns an initial_decoder_inputs vector of the batch
length whose k-th entry is the first decoder-input token of example k;
when every decoder input of the batch starts with the BOS id (as those
built by the dataset do), the vector is BOS repeated batch-length
times. -/
theorem C4_theorem (tz : Tokenizer) (split : String) (nl sql : List String)
    (i : Nat)
    (hi : i < (process_data tz split nl sql).decoder_inputs.length) :
    ((process_data tz split nl sql).decoder_inputs.getD i []).head?
        = some tz.bosId ∧
    (∀ (batch : List (List Nat × List Nat × List Nat)) (b : Batch),
      normal_collate_fn batch = Except.ok b →
      b.initial_decoder_inputs.length = batch.length ∧
      (∀ k, k < batch.length →
        b.initial_decoder_inputs.getD k PAD_IDX
          = ((batch.getD k default).2.1).headD PAD_IDX) ∧
      ((∀ item ∈ batch, item.2.1.head? = some tz.bosId) →
        b.initial_decoder_inputs = List.replicate batch.length tz.bosId)) ∧
    (∀ (batch : List (List Nat × List Nat × Option (List Nat)))
       (b : TestBatch),
      test_collate_fn batch = Except.ok b →
      b.initial_decoder_inputs.length = batch.length ∧
      (∀ k, k < batch.length →
        b.initial_decoder_inputs.getD k PAD_IDX
          = ((batch.getD k default).2.1).headD PAD_IDX) ∧
      ((∀ item ∈ batch, item.2.1.head? = some tz.bosId) →
        b.initial_decoder_inputs = List.replicate batch.length tz.bosId)) := by
  refine ⟨?_, ?_, ?_⟩
  · by_cases hs : split = "test"
    · subst hs
      have h1 : i < nl.length := by
        rw [process_data_decoder_inputs_length] at hi
        simpa using hi
      rw [(process_data_getD_test tz nl sql i h1).2.1]
      rfl
    · rw [process_data_decoder_inputs_length tz split nl sql] at hi
      simp only [hs, ne_eq, not_false_eq_true, if_true, ite_true] at hi
      have h1 : i < nl.length := lt_of_lt_of_le hi (Nat.min_le_left _ _)
      have h2 : i < sql.length := lt_of_lt_of_le hi (Nat.min_le_right _ _)
      rw [(process_data_getD_labeled tz split hs nl sql i h1 h2).2.1]
      rfl
  · intro batch b hok
    have hinit := (normal_collate_fields batch b hok).2.2.2.2
    refine ⟨by rw [hinit]; simp, ?_, ?_⟩
    · intro k hk
      rw [hinit,
        getD_map _ _ k (by simpa using hk) PAD_IDX [],
        getD_map _ _ k hk [] default]
    · intro hbos
      rw [hinit, List.map_map]
      have := map_eq_replicate batch
        (fun it => it.2.1.headD PAD_IDX) tz.bosId
        (fun x hx => headD_of_head? (hbos x hx))
      simpa using this
  · intro batch b hok
    have hinit := (test_collate_fields batch b hok).2.2
    refine ⟨by rw [hinit]; simp, ?_, ?_⟩
    · intro k hk
      rw [hinit,
        getD_map _ _ k (by simpa using hk) PAD_IDX [],
        getD_map _ _ k hk [] default]
    · intro hbos
      rw [hinit, List.map_map]
      have := map_eq_replicate batch
        (fun it => it.2.1.headD PAD_IDX) tz.bosId
        (fun x hx => headD_of_head? (hbos x hx))
      simpa using this

/-- C4, witness: the first conjunct of the statement evaluated on a
one-example train split. -/
theorem C4_witness :
    ((process_data toyTok "train" ["a"] ["b"]).decoder_inputs.getD 0
        []).head? = some toyTok.bosId :=
  (C4_theorem toyTok "train" ["a"] ["b"] 0 (by decide)).1

/-- C5: on the test split every example has decoder input exactly the
one-element list holding the BOS id and an empty decoder target. -/
theorem C5_theorem (tz : Tokenizer) (nl sql : List String) (i : Nat)
    (h1 : i < nl.length) :
    (process_data tz "test" nl sql).decoder_inputs.getD i [] = [tz.bosId] ∧
    ((process_data tz "test" nl sql).decoder_inputs.getD i []).length = 1 ∧
    (process_data tz "test" nl sql).decoder_targets.getD i [] = [] := by
  obtain ⟨-, h2, h3⟩ := process_data_getD_test tz nl sql i h1
  exact ⟨h2, by rw [h2]; rfl, h3⟩

/-- C5, witness: the statement evaluated on a two-question test split. -/
theorem C5_witness :
    (process_data toyTok "test" ["a", "bb"] []).decoder_inputs.getD 1 []
        = [toyTok.bosId] ∧
    ((process_data toyTok "test" ["a", "bb"] []).decoder_inputs.getD 1
        []).length = 1 ∧
    (process_data toyTok "test" ["a", "bb"] []).decoder_targets.getD 1 []
        = [] :=
  C5_theorem toyTok ["a", "bb"] [] 1 (by decide)

/-- C6: in every batch produced by either collator, the encoder mask is
1 at a position exactly when the padded encoder id there differs from
the pad id 0. -/
theorem C6_theorem (batch₁ : List (List Nat × List Nat × List Nat))
    (batch₂ : List (List Nat × List Nat × Option (List Nat)))
    (b₁ : Batch) (b₂ : TestBatch)
    (hok₁ : normal_collate_fn batch₁ = Except.ok b₁)
    (hok₂ : test_collate_fn batch₂ = Except.ok b₂)
    (i₁ j₁ i₂ j₂ : Nat)
    (hi₁ : i₁ < b₁.encoder_ids.length)
    (hj₁ : j₁ < (b₁.encoder_ids.getD i₁ []).length)
    (hi₂ : i₂ < b₂.encoder_ids.length)
    (hj₂ : j₂ < (b₂.encoder_ids.getD i₂ []).length) :
    ((b₁.encoder_mask.getD i₁ []).getD j₁ 0 = 1 ↔
      (b₁.encoder_ids.getD i₁ []).getD j₁ 0 ≠ PAD_IDX) ∧
    ((b₂.encoder_mask.getD i₂ []).getD j₂ 0 = 1 ↔
      (b₂.encoder_ids.getD i₂ []).getD j₂ 0 ≠ PAD_IDX) := by
  constructor
  · have hm := (normal_collate_fields batch₁ b₁ hok₁).2.1
    rw [hm, getD_map _ _ i₁ hi₁ [] []]
    exact mask_row_getD _ j₁ hj₁
  · have hm := (test_collate_fields batch₂ b₂ hok₂).2.1
    rw [hm, getD_map _ _ i₂ hi₂ [] []]
    exact mask_row_getD _ j₂ hj₂

/-- C6, witness: the statement evaluated on concrete one-example
batches, at the padded position of the first row. -/
theorem C6_witness :
    (((Batch.mk [[3, 1, 0]] [[1, 1, 0]] [[5, 3]] [[3, 1]]
        [5]).encoder_mask.getD 0 []).getD 2 0 = 1 ↔
      ((Batch.mk [[3, 1, 0]] [[1, 1, 0]] [[5, 3]] [[3, 1]]
        [5]).encoder_ids.getD 0 []).getD 2 0 ≠ PAD_IDX) ∧
    (((TestBatch.mk [[4, 1]] [[1, 1]] [5]).encoder_mask.getD 0 []).getD 1 0
        = 1 ↔
      ((TestBatch.mk [[4, 1]] [[1, 1]] [5]).encoder_ids.getD 0 []).getD 1 0
        ≠ PAD_IDX) :=
  C6_theorem [([3, 1, 0], [5, 3], [3, 1])] [([4, 1], [5], none)]
    (Batch.mk [[3, 1, 0]] [[1, 1, 0]] [[5, 3]] [[3, 1]] [5])
    (TestBatch.mk [[4, 1]] [[1, 1]] [5])
    (by rfl) (by rfl) 0 2 0 1
    (by decide) (by decide) (by decide) (by decide)

/-- C7: on a non-empty batch the labeled collator succeeds; encoder rows
are each the corresponding input sequence right-padded to the maximum
encoder length of this batch, decoder-input and decoder-target rows are
each padded to the maximum decoder length of this batch (the two maxima
coincide because every labeled example has equally long decoder input
and target), and row i always comes from input example i. -/
theorem C7_theorem (batch : List (List Nat × List Nat × List Nat))
    (hne : batch ≠ [])
    (hlen : ∀ item ∈ batch, item.2.1.length = item.2.2.length) :
    ∃ b, normal_collate_fn batch = Except.ok b ∧
      b.encoder_ids.length = batch.length ∧
      b.decoder_inputs.length = batch.length ∧
      b.decoder_targets.length = batch.length ∧
      maxLen (batch.map fun it => it.2.2)
        = maxLen (batch.map fun it => it.2.1) ∧
      ∀ i, i < batch.length →
        b.encoder_ids.getD i []
          = padTo (maxLen (batch.map fun it => it.1)) PAD_IDX
              (batch.getD i default).1 ∧
        (b.encoder_ids.getD i []).length
          = maxLen (batch.map fun it => it.1) ∧
        b.decoder_inputs.getD i []
          = padTo (maxLen (batch.map fun it => it.2.1)) PAD_IDX
              (batch.getD i default).2.1 ∧
        (b.decoder_inputs.getD i []).length
          = maxLen (batch.map fun it => it.2.1) ∧
        b.decoder_targets.getD i []
          = padTo (maxLen (batch.map fun it => it.2.1)) PAD_IDX
              (batch.getD i default).2.2 ∧
        (b.decoder_targets.getD i []).length
          = maxLen (batch.map fun it => it.2.1) := by
  obtain ⟨b, hok⟩ : ∃ b, normal_collate_fn batch = Except.ok b := by
    cases batch with
    | nil => exact absurd rfl hne
    | cons x xs => exact ⟨_, rfl⟩
  obtain ⟨henc, -, hdin, hdtg, -⟩ := normal_collate_fields batch b hok
  have hmax : maxLen (batch.map fun it => it.2.2)
      = maxLen (batch.map fun it => it.2.1) :=
    maxLen_congr _ _ batch (fun x hx => (hlen x hx).symm)
  refine ⟨b, hok, by rw [henc]; simp, by rw [hdin]; simp,
    by rw [hdtg]; simp, hmax, ?_⟩
  intro i hi
  have hie : i < (batch.map fun it => it.1).length := by simpa using hi
  have hid : i < (batch.map fun it => it.2.1).length := by simpa using hi
  have hit : i < (batch.map fun it => it.2.2).length := by simpa using hi
  have he1 : (batch.map fun it => it.1).getD i []
      = (batch.getD i default).1 := getD_map _ _ i hi [] default
  have hd1 : (batch.map fun it => it.2.1).getD i []
      = (batch.getD i default).2.1 := getD_map _ _ i hi [] default
  have ht1 : (batch.map fun it => it.2.2).getD i []
      = (batch.getD i default).2.2 := getD_map _ _ i hi [] default
  have hle : (batch.getD i default).1.length
      ≤ maxLen (batch.map fun it => it.1) := by
    rw [← he1]; exact length_le_maxLen (getD_mem _ i hie [])
  have hld : (batch.getD i default).2.1.length
      ≤ maxLen (batch.map fun it => it.2.1) := by
    rw [← hd1]; exact length_le_maxLen (getD_mem _ i hid [])
  have hlt : (batch.getD i default).2.2.length
      ≤ maxLen (batch.map fun it => it.2.1) := by
    have : (batch.getD i default).2.2.length
        ≤ maxLen (batch.map fun it => it.2.2) := by
      rw [← ht1]; exact length_le_maxLen (getD_mem _ i hit [])
    omega
  refine ⟨?_, ?_, ?_, ?_, ?_, ?_⟩
  · rw [henc, getD_map _ _ i hie [] [], he1]
  · rw [henc, getD_map _ _ i hie [] [], he1]
    exact length_padTo hle
  · rw [hdin, getD_map _ _ i hid [] [], hd1]
  · rw [hdin, getD_map _ _ i hid [] [], hd1]
    exact length_padTo hld
  · rw [hdtg, getD_map _ _ i hit [] [], ht1, hmax]
  · rw [hdtg, getD_map _ _ i hit [] [], ht1, hmax]
    exact length_padTo hlt

/-- C7, witness: existence of the padded batch for a concrete two-example
batch with encoder lengths 1 and 2 and decoder lengths 2 and 1. -/
theorem C7_witness :
    ∃ b, normal_collate_fn [([3], [5, 3], [3, 1]), ([4, 1], [5], [1])]
        = Except.ok b ∧
      b.encoder_ids.length
        = [([3], [5, 3], [3, 1]), ([4, 1], [5], [1])].length ∧
      b.decoder_inputs.length
        = [([3], [5, 3], [3, 1]), ([4, 1], [5], [1])].length ∧
      b.decoder_targets.length
        = [([3], [5, 3], [3, 1]), ([4, 1], [5], [1])].length ∧
      maxLen ([([3], [5, 3], [3, 1]), ([4, 1], [5], [1])].map
          fun it => it.2.2)
        = maxLen ([([3], [5, 3], [3, 1]), ([4, 1], [5], [1])].map
          fun it => it.2.1) ∧
      ∀ i, i < [([3], [5, 3], [3, 1]), ([4, 1], [5], [1])].length →
        b.encoder_ids.getD i []
          = padTo (maxLen ([([3], [5, 3], [3, 1]), ([4, 1], [5], [1])].map
              fun it => it.1)) PAD_IDX
              ([([3], [5, 3], [3, 1]), ([4, 1], [5], [1])].getD i default).1 ∧
        (b.encoder_ids.getD i []).length
          = maxLen ([([3], [5, 3], [3, 1]), ([4, 1], [5], [1])].map
              fun it => it.1) ∧
        b.decoder_inputs.getD i []
          = padTo (maxLen ([([3], [5, 3], [3, 1]), ([4, 1], [5], [1])].map
              fun it => it.2.1)) PAD_IDX
              ([([3], [5, 3], [3, 1]),
                ([4, 1], [5], [1])].getD i default).2.1 ∧
        (b.decoder_inputs.getD i []).length
          = maxLen ([([3], [5, 3], [3, 1]), ([4, 1], [5], [1])].map
              fun it => it.2.1) ∧
        b.decoder_targets.getD i []
          = padTo (maxLen ([([3], [5, 3], [3, 1]), ([4, 1], [5], [1])].map
              fun it => it.2.1)) PAD_IDX
              ([([3], [5, 3], [3, 1]),
                ([4, 1], [5], [1])].getD i default).2.2 ∧
        (b.decoder_targets.getD i []).length
          = maxLen ([([3], [5, 3], [3, 1]), ([4, 1], [5], [1])].map
              fun it => it.2.1) :=
  C7_theorem [([3], [5, 3], [3, 1]), ([4, 1], [5], [1])]
    (by decide) (by decide)

/-- C8: stripping a padded encoder row at the positions where the mask
is 1 recovers the original tokenized encoder sequence, provided no real
encoder token equals the pad id 0 (the vocabulary reserves id 0 for
padding). -/
theorem C8_theorem (batch : List (List Nat × List Nat × List Nat))
    (b : Batch) (hok : normal_collate_fn batch = Except.ok b)
    (hnz : ∀ item ∈ batch, ∀ t ∈ item.1, t ≠ PAD_IDX)
    (i : Nat) (hi : i < batch.length) :
    stripPad (b.encoder_ids.getD i []) (b.encoder_mask.getD i [])
      = (batch.getD i default).1 := by
  obtain ⟨henc, hm, -, -, -⟩ := normal_collate_fields batch b hok
  have hie : i < (batch.map fun it => it.1).length := by simpa using hi
  have he1 : (batch.map fun it => it.1).getD i []
      = (batch.getD i default).1 := getD_map _ _ i hi [] default
  have hids : b.encoder_ids.getD i []
      = padTo (maxLen (batch.map fun it => it.1)) PAD_IDX
          (batch.getD i default).1 := by
    rw [henc, getD_map _ _ i hie [] [], he1]
  have hiid : i < b.encoder_ids.length := by
    rw [henc]; simpa using hi
  have hmask : b.encoder_mask.getD i []
      = mask_row (b.encoder_ids.getD i []) := by
    rw [hm, getD_map _ _ i hiid [] []]
  rw [hids, hmask, hids]
  exact stripPad_padTo _ _
    (hnz (batch.getD i default) (getD_mem _ i hi default))

/-- C8, witness: the round-trip evaluated on a concrete two-example
batch where the first row gets one pad token. -/
theorem C8_witness :
    stripPad
      (((normal_collate_fn [([3], [5], [1]),
          ([4, 1], [5, 4], [4, 1])]).toOption.getD
        (Batch.mk [] [] [] [] [])).encoder_ids.getD 0 [])
      (((normal_collate_fn [([3], [5], [1]),
          ([4, 1], [5, 4], [4, 1])]).toOption.getD
        (Batch.mk [] [] [] [] [])).encoder_mask.getD 0 [])
      = ([([3], [5], [1]), ([4, 1], [5, 4], [4, 1])].getD 0 default).1 :=
  C8_theorem [([3], [5], [1]), ([4, 1], [5, 4], [4, 1])]
    ((normal_collate_fn [([3], [5], [1]),
        ([4, 1], [5, 4], [4, 1])]).toOption.getD (Batch.mk [] [] [] [] []))
    (by rfl) (by decide) 0 (by decide)

/-- C9, counterexample: on an empty list of examples both collators
return the torch pad_sequence error instead of a size-0 batch. -/
theorem C9_counterexample :
    normal_collate_fn []
        = Except.error "received an empty list of sequences" ∧
    test_collate_fn []
        = Except.error "received an empty list of sequences" :=
  ⟨rfl, rfl⟩

/-- C9, amended: the collation step does not accept an empty list of
examples; both collators propagate an error from the padding routine
(torch pad_sequence raises on an empty sequence list), so no degenerate
size-0 batch is ever returned. -/
theorem C9_theorem :
    (∃ e, normal_collate_fn [] = Except.error e) ∧
    (∃ e, test_collate_fn [] = Except.error e) :=
  ⟨⟨_, rfl⟩, ⟨_, rfl⟩⟩

/-- C10: on the test split the stored decoder target of every example is
the empty sequence, yet getItem returns None as the third component of
the triple; on every other split getItem returns the stored decoder
target. -/
theorem C10_theorem (tz : Tokenizer) (nl sql : List String) (i : Nat)
    (hi : i < nl.length) :
    (process_data tz "test" nl sql).decoder_targets.getD i [] = [] ∧
    (getItem "test" (process_data tz "test" nl sql) i).2.2 = none ∧
    (∀ (split : String), split ≠ "test" → ∀ (d : TokenizedData) (k : Nat),
      (getItem split d k).2.2 = some (d.decoder_targets.getD k [])) := by
  refine ⟨(process_data_getD_test tz nl sql i hi).2.2, ?_, ?_⟩
  · simp [getItem]
  · intro split hs d k
    simp [getItem, hs]

/-- C10, witness: the statement evaluated on a one-question test
split. -/
theorem C10_witness :
    (process_data toyTok "test" ["a"] []).decoder_targets.getD 0 [] = [] ∧
    (getItem "test" (process_data toyTok "test" ["a"] []) 0).2.2 = none ∧
    (∀ (split : String), split ≠ "test" → ∀ (d : TokenizedData) (k : Nat),
      (getItem split d k).2.2 = some (d.decoder_targets.getD k [])) :=
  C10_theorem toyTok ["a"] [] 0 (by decide)

end Claims

end LoadData
